import Mathlib

/-!
Verification of the debounced-search / dynamic-dependency fetch pattern of a
React tutorial repository, shallowly embedded in Lean 4.

The embedding follows the source components:

* `src/14_Api_calling/src/components/DynamicFetch.jsx` — state
  `(user, loading, error)`; on every `userId` change the effect runs
  `setLoading(true); setError(null)` and issues a request; on resolution the
  handler runs `setUser(response.data)` (or `setError(err.message)` in the
  catch) followed by `setLoading(false)` in the finally block.  The source has
  no request token: every arriving response is applied unconditionally.
* `src/14_Api_calling/src/components/SearchWithDebounce.jsx` — state
  `(searchTerm, results, loading)`; after the debounce fires, a non-blank term
  calls `searchUsers` (issue request, filter the returned user list by
  case-insensitive substring on name or email) and a blank term runs
  `setResults([])`; the catch block only logs (`console.error`), no error state.
* `src/15_UseEffect_in_react/src/examples/DebounceSearchExample.jsx` — the
  debounce effect: on every `searchTerm` change the cleanup cancels the
  pending `setTimeout` and a new timer is scheduled for 500 ms later; on
  unmount the cleanup cancels the pending timer.
* `src/16_Gallery_project/src/App.jsx` — pager: `index` starts at 1, Next runs
  `setIndex(index + 1)`, Previous runs `setIndex(index - 1)` only when
  `index > 1`; requests go to `...?page=${index}&limit=20`.

The event loop is single threaded (spec §5), so the machines are modelled as
sequential event traces folded over a step function.
-/

/-- The four-way request status of spec §3 (`Idle | Loading | Success | Error`). -/
inductive RequestStatus : Type where
  | Idle : RequestStatus
  | Loading : RequestStatus
  | Success : RequestStatus
  | Error : RequestStatus
deriving DecidableEq

/-- Response payloads are opaque to the coordinator (arbitrary JSON in the
source); we model them as strings. -/
abbrev Payload := String

/-- State of `DynamicFetch`: the three `useState` cells `user`, `loading`,
`error`, plus the bookkeeping list of issued requests (the key passed to each
request, in issue order).  The index into `issuedKeys` plays the role of the
spec's `requestToken`; the source itself stores no token. -/
structure DynamicFetchState : Type where
  user : Option Payload
  loading : Bool
  error : Option String
  issuedKeys : List Nat
deriving DecidableEq

/-- Initial state of `DynamicFetch` before the first effect run:
`useState(null)`, `useState(false)`, `useState(null)`, nothing issued. -/
def initDF : DynamicFetchState := ⟨none, false, none, []⟩

/-- The latest minted token, if any request has been issued: position of the
most recently issued request in `issuedKeys`. -/
def currentToken (s : DynamicFetchState) : Option Nat :=
  if s.issuedKeys.length = 0 then none else some (s.issuedKeys.length - 1)

/-- Events of the `DynamicFetch` machine: a key (userId) change firing the
effect, and the network resolving request number `t` with a payload or an
error message. -/
inductive DFEvent : Type where
  | keyChange : Nat → DFEvent
  | success : Nat → Payload → DFEvent
  | failure : Nat → String → DFEvent
deriving DecidableEq

/-- One step of `DynamicFetch` (`DynamicFetch.jsx` lines 11–30):
key change runs `setLoading(true); setError(null)` and issues the request;
a resolving request runs its handler unconditionally — `setUser(data)` or
`setError(msg)`, then `setLoading(false)` — with no token comparison. -/
def dfStep (s : DynamicFetchState) : DFEvent → DynamicFetchState
  | DFEvent.keyChange k =>
      { s with loading := true, error := none, issuedKeys := s.issuedKeys ++ [k] }
  | DFEvent.success _ d =>
      { s with user := some d, loading := false }
  | DFEvent.failure _ m =>
      { s with error := some m, loading := false }

/-- Run `DynamicFetch` on a trace of events from the initial state. -/
def dfRun (es : List DFEvent) : DynamicFetchState :=
  es.foldl dfStep initDF

/-- Status as the consumer's render branches see it: the spinner wins while
`loading`, else the error box if `error` is set, else the data box if `user`
is set, else idle. -/
def dfStatus (s : DynamicFetchState) : RequestStatus :=
  if s.loading then RequestStatus.Loading
  else if s.error.isSome then RequestStatus.Error
  else if s.user.isSome then RequestStatus.Success
  else RequestStatus.Idle

/-- Accumulator step remembering the payload of the most recent success. -/
def updLast (acc : Option Payload) : DFEvent → Option Payload
  | DFEvent.success _ d => some d
  | _ => acc

/-- Payload of the most recently arrived success response in a trace. -/
def lastSuccessData (es : List DFEvent) : Option Payload :=
  es.foldl updLast none

/-- Whether a trace contains any success response. -/
def hasSuccess (es : List DFEvent) : Bool :=
  es.any (fun e =>
    match e with
    | DFEvent.success _ _ => true
    | _ => false)

theorem updLast_acc (es : List DFEvent) (a : Option Payload) :
    es.foldl updLast a =
      (match es.foldl updLast none with
       | some d => some d
       | none => a) := by
  induction es generalizing a with
  | nil => rfl
  | cons e es ih =>
      cases e with
      | keyChange k =>
          simp only [List.foldl_cons, updLast]
          exact ih a
      | success t d =>
          simp only [List.foldl_cons, updLast]
          rw [ih (some d)]
          cases h : es.foldl updLast none <;> simp
      | failure t m =>
          simp only [List.foldl_cons, updLast]
          exact ih a

theorem dfFoldl_user (es : List DFEvent) (s : DynamicFetchState) :
    (es.foldl dfStep s).user =
      (match lastSuccessData es with
       | some d => some d
       | none => s.user) := by
  induction es generalizing s with
  | nil => rfl
  | cons e es ih =>
      cases e with
      | keyChange k =>
          simp only [List.foldl_cons, lastSuccessData, updLast, dfStep]
          exact ih _
      | success t d =>
          simp only [List.foldl_cons, lastSuccessData, updLast, dfStep]
          rw [ih, updLast_acc es (some d)]
          simp only [lastSuccessData]
          cases h : es.foldl updLast none <;> simp [h]
      | failure t m =>
          simp only [List.foldl_cons, lastSuccessData, updLast, dfStep]
          exact ih _

theorem lastSuccessData_isSome (es : List DFEvent) :
    (lastSuccessData es).isSome = hasSuccess es := by
  induction es with
  | nil => rfl
  | cons e es ih =>
      cases e with
      | keyChange k =>
          simpa [lastSuccessData, hasSuccess, updLast] using ih
      | success t d =>
          simp only [lastSuccessData, hasSuccess, List.foldl_cons, List.any_cons, updLast]
          rw [updLast_acc es (some d)]
          cases h : es.foldl updLast none <;> simp [h]
      | failure t m =>
          simpa [lastSuccessData, hasSuccess, updLast] using ih

theorem dfFoldl_error_inv (es : List DFEvent) (s : DynamicFetchState)
    (h : s.error.isSome = true → s.loading = false) :
    (es.foldl dfStep s).error.isSome = true → (es.foldl dfStep s).loading = false := by
  induction es generalizing s with
  | nil => exact h
  | cons e es ih =>
      cases e with
      | keyChange k =>
          refine ih _ ?_
          intro hc
          simp [dfStep] at hc
      | success t d =>
          refine ih _ ?_
          intro _
          rfl
      | failure t m =>
          refine ih _ ?_
          intro _
          rfl

/-- Extracting the key-change keys from a trace. -/
def keyOf : DFEvent → Option Nat
  | DFEvent.keyChange k => some k
  | _ => none

theorem dfFoldl_issuedKeys (es : List DFEvent) (s : DynamicFetchState) :
    (es.foldl dfStep s).issuedKeys = s.issuedKeys ++ es.filterMap keyOf := by
  induction es generalizing s with
  | nil => simp
  | cons e es ih =>
      cases e with
      | keyChange k =>
          simp only [List.foldl_cons, dfStep, List.filterMap_cons, keyOf]
          rw [ih]
          simp
      | success t d =>
          simp only [List.foldl_cons, dfStep, List.filterMap_cons, keyOf]
          exact ih _
      | failure t m =>
          simp only [List.foldl_cons, dfStep, List.filterMap_cons, keyOf]
          exact ih _

/-- C1 counterexample.  The source `DynamicFetch.jsx` stores no request token
and applies every arriving response unconditionally.  Trace: key changes mint
tokens 0 and 1; token 1's response arrives (`user = "U2"`); then token 0's
stale response arrives after the newer token 1 was issued — the claim says
applying it is a no-op, but the state changes to `user = "U1"`. -/
theorem dfStale_applied_counterexample :
    currentToken (dfRun [DFEvent.keyChange 1, DFEvent.keyChange 2,
        DFEvent.success 1 "U2"]) = some 1
    ∧ (dfRun [DFEvent.keyChange 1, DFEvent.keyChange 2,
        DFEvent.success 1 "U2"]).user = some "U2"
    ∧ (dfRun [DFEvent.keyChange 1, DFEvent.keyChange 2,
        DFEvent.success 1 "U2", DFEvent.success 0 "U1"]).user = some "U1"
    ∧ (dfRun [DFEvent.keyChange 1, DFEvent.keyChange 2,
        DFEvent.success 1 "U2", DFEvent.success 0 "U1"]).user
      ≠ (dfRun [DFEvent.keyChange 1, DFEvent.keyChange 2,
        DFEvent.success 1 "U2"]).user := by
  refine ⟨rfl, rfl, rfl, ?_⟩
  decide

/-- C1 (amended): responses are applied to the fetch state unconditionally on
arrival, with no token comparison — `data` always equals the payload of the
most recently arrived success response, so a response for an old token
arriving after a newer token was issued overwrites the state rather than
being a no-op. -/
theorem dfRun_user_lastArrival (es : List DFEvent) :
    (dfRun es).user = lastSuccessData es := by
  unfold dfRun
  rw [dfFoldl_user]
  cases h : lastSuccessData es
  · rfl
  · rfl

/-- C3 counterexample.  After a success for key 1, a key change to 2 and an
error response, the state has `error` set (`status = Error` by the render
branches) while `data` still holds the old payload: `data` is non-null in a
non-`Success` state, refuting "data is non-null only when status = Success". -/
theorem dfData_nonnull_outside_success_counterexample :
    dfStatus (dfRun [DFEvent.keyChange 1, DFEvent.success 0 "U1",
        DFEvent.keyChange 2, DFEvent.failure 1 "Network Error"])
      = RequestStatus.Error
    ∧ (dfRun [DFEvent.keyChange 1, DFEvent.success 0 "U1",
        DFEvent.keyChange 2, DFEvent.failure 1 "Network Error"]).user
      = some "U1" := by
  exact ⟨rfl, rfl⟩

/-- C3 (amended): in every reachable state, `error` is non-null only when
`status = Error` (never while loading), and `data` is non-null exactly when
some success response has been applied — data persists through later key
changes and error responses instead of being nulled out. -/
theorem dfRun_field_invariants (es : List DFEvent) :
    ((dfRun es).error.isSome = true → dfStatus (dfRun es) = RequestStatus.Error)
    ∧ (dfRun es).user.isSome = hasSuccess es := by
  constructor
  · intro herr
    have hload : (dfRun es).loading = false := by
      refine dfFoldl_error_inv es initDF ?_ herr
      intro hc
      rfl
    unfold dfStatus
    rw [hload, herr]
    rfl
  · rw [dfRun_user_lastArrival]
    exact lastSuccessData_isSome es

/-- Witness for the amended C3 theorem at a concrete trace with an error. -/
theorem dfRun_field_invariants_witness :
    (dfRun [DFEvent.keyChange 1, DFEvent.failure 0 "boom"]).error.isSome = true
    ∧ dfStatus (dfRun [DFEvent.keyChange 1, DFEvent.failure 0 "boom"])
        = RequestStatus.Error :=
  ⟨by decide,
   (dfRun_field_invariants [DFEvent.keyChange 1, DFEvent.failure 0 "boom"]).1
     (by decide)⟩

/-- C6 (confirmed): applying an error response for the current token sets
`status = Error` and the error message, and leaves `data` exactly as it was
(`DynamicFetch.jsx` catch block touches only `error` and `loading`). -/
theorem dfError_isolation (s : DynamicFetchState) (t : Nat) (m : String)
    (_h : currentToken s = some t) :
    (dfStep s (DFEvent.failure t m)).user = s.user
    ∧ (dfStep s (DFEvent.failure t m)).error = some m
    ∧ dfStatus (dfStep s (DFEvent.failure t m)) = RequestStatus.Error := by
  refine ⟨rfl, rfl, ?_⟩
  rfl

/-- Witness for C6 at a concrete state whose current token is 0. -/
theorem dfError_isolation_witness :
    currentToken (dfRun [DFEvent.keyChange 5]) = some 0
    ∧ ((dfStep (dfRun [DFEvent.keyChange 5]) (DFEvent.failure 0 "boom")).user
        = (dfRun [DFEvent.keyChange 5]).user
      ∧ (dfStep (dfRun [DFEvent.keyChange 5]) (DFEvent.failure 0 "boom")).error
        = some "boom"
      ∧ dfStatus (dfStep (dfRun [DFEvent.keyChange 5]) (DFEvent.failure 0 "boom"))
        = RequestStatus.Error) :=
  ⟨by decide, dfError_isolation (dfRun [DFEvent.keyChange 5]) 0 "boom" (by decide)⟩

/-- C8 (confirmed): in every execution the issued requests are exactly the
key-change events, in order — responses (success or error) never issue a
request, so there is no automatic retry or backoff after an error. -/
theorem dfRequests_only_from_keyChanges (es : List DFEvent) :
    (dfRun es).issuedKeys = es.filterMap keyOf := by
  unfold dfRun
  rw [dfFoldl_issuedKeys]
  rfl

/-- JS `String.prototype.toLowerCase`, embedded executably: lower-case every
character. -/
def strToLower (s : String) : String := ⟨s.data.map Char.toLower⟩

/-- JS `String.prototype.trim`, embedded executably: drop leading and
trailing whitespace. -/
def strTrim (s : String) : String :=
  ⟨((s.data.dropWhile Char.isWhitespace).reverse.dropWhile Char.isWhitespace).reverse⟩

/-- JS `hay.includes(needle)` on character lists: some suffix of the
haystack starts with the needle. -/
def listIncludes (needle : List Char) : List Char → Bool
  | [] => needle.isPrefixOf []
  | c :: hs => needle.isPrefixOf (c :: hs) || listIncludes needle hs

/-- JS `hay.includes(needle)` on strings. -/
def strIncludes (hay needle : String) : Bool := listIncludes needle.data hay.data

theorem listIncludes_iff (n : List Char) (h : List Char) :
    listIncludes n h = true ↔ n <:+: h := by
  induction h with
  | nil =>
      simp only [listIncludes, List.infix_nil]
      rw [ List.isPrefixOf_iff_prefix, List.prefix_nil]
  | cons c hs ih =>
      simp only [listIncludes, Bool.or_eq_true, List.infix_cons_iff]
      rw [ List.isPrefixOf_iff_prefix, ih]

/-- A user record as consumed by `SearchWithDebounce.jsx` (`id` is used only
as a render key). -/
structure UserRec : Type where
  id : Nat
  name : String
  email : String
deriving DecidableEq

/-- The filter predicate of `searchUsers` (`SearchWithDebounce.jsx` lines
30–34): `user.name.toLowerCase().includes(query.toLowerCase()) ||
user.email.toLowerCase().includes(query.toLowerCase())`. -/
def userMatches (query : String) (u : UserRec) : Bool :=
  strIncludes (strToLower u.name) (strToLower query)
    || strIncludes (strToLower u.email) (strToLower query)

/-- `response.data.filter(...)` of `searchUsers`. -/
def filterUsers (query : String) (users : List UserRec) : List UserRec :=
  users.filter (userMatches query)

/-- Modelled from the spec's words (C10), for refinement comparison only:
a user matches when its name or email contains the query as a
case-insensitive substring. -/
def SpecCaseInsensitiveMatch (query : String) (u : UserRec) : Prop :=
  (strToLower query).data <:+: (strToLower u.name).data
    ∨ (strToLower query).data <:+: (strToLower u.email).data

/-- State of `SearchWithDebounce`: the `useState` cells `results` and
`loading` (there is no error cell in the source), plus the bookkeeping list
of issued queries — the argument passed to each `searchUsers` call, in issue
order; the position in this list plays the role of the spec's token. -/
structure SearchState : Type where
  results : List UserRec
  loading : Bool
  issuedQueries : List String
deriving DecidableEq

/-- Initial state: `useState([])`, `useState(false)`. -/
def initSW : SearchState := ⟨[], false, []⟩

/-- Events of the `SearchWithDebounce` machine: a debounced search term
arriving (the body of the `setTimeout` callback), and request number `i`
resolving with the full user list or rejecting with an error message. -/
inductive SWEvent : Type where
  | stableKey : String → SWEvent
  | response : Nat → List UserRec → SWEvent
  | respError : Nat → String → SWEvent
deriving DecidableEq

/-- One step of `SearchWithDebounce` (`SearchWithDebounce.jsx` lines 12–41):
a blank (trimmed-empty) term runs `setResults([])`; a non-blank term runs
`searchUsers` — `setLoading(true)` and issue the request; a resolving
request filters the returned users by the query it was issued with and runs
`setResults(filtered); setLoading(false)`; a rejecting request runs only
`console.error` and `setLoading(false)` — no state cell records the error. -/
def swStep (s : SearchState) : SWEvent → SearchState
  | SWEvent.stableKey q =>
      if strTrim q = "" then { s with results := [] }
      else { s with loading := true, issuedQueries := s.issuedQueries ++ [q] }
  | SWEvent.response i users =>
      { s with results := filterUsers (s.issuedQueries.getD i "") users,
               loading := false }
  | SWEvent.respError _ _ =>
      { s with loading := false }

/-- Run `SearchWithDebounce` on a trace of events from the initial state. -/
def swRun (es : List SWEvent) : SearchState :=
  es.foldl swStep initSW

/-- Status as the render branches of `SearchWithDebounce.jsx` see it: the
spinner while `loading`, else results when non-empty, else idle/no-data.
The component has no error cell, so no state renders as `Error`. -/
def swStatus (s : SearchState) : RequestStatus :=
  if s.loading then RequestStatus.Loading
  else if s.results.isEmpty then RequestStatus.Idle
  else RequestStatus.Success

/-- C4 counterexample.  Setting the key to the empty value while a request is
in flight does not transition the coordinator to `Idle`: after `"ab"` issues
a request (`loading = true`) and the term is cleared, the state still reports
`Loading` — the empty-key branch only runs `setResults([])` and leaves
`loading` untouched. -/
theorem swEmptyKey_counterexample :
    swStatus (swRun [SWEvent.stableKey "ab", SWEvent.stableKey ""])
      = RequestStatus.Loading
    ∧ swStatus (swRun [SWEvent.stableKey "ab", SWEvent.stableKey ""])
      ≠ RequestStatus.Idle
    ∧ (swRun [SWEvent.stableKey "ab", SWEvent.stableKey ""]).results = []
    ∧ (swRun [SWEvent.stableKey "ab", SWEvent.stableKey ""]).issuedQueries
      = ["ab"] := by
  refine ⟨?_, ?_, ?_, ?_⟩ <;> decide

/-- C4 (amended): setting the key to the designated empty value from any
state clears the results and issues no request (and there is no error cell
to clear); the coordinator reports `Idle` provided no request is in flight —
if one is in flight, `loading` remains set until that response arrives. -/
theorem swEmptyKey_clears (s : SearchState) :
    (swStep s (SWEvent.stableKey "")).results = []
    ∧ (swStep s (SWEvent.stableKey "")).issuedQueries = s.issuedQueries
    ∧ (swStep s (SWEvent.stableKey "")).loading = s.loading
    ∧ (s.loading = false →
        swStatus (swStep s (SWEvent.stableKey "")) = RequestStatus.Idle) := by
  have hq : strTrim "" = "" := rfl
  refine ⟨?_, ?_, ?_, ?_⟩ <;>
    · simp only [swStep, hq, if_pos]
      try intro hl
      try simp [swStatus, *]

/-- Witness for the amended C4 theorem at a concrete non-loading state. -/
theorem swEmptyKey_clears_witness :
    initSW.loading = false
    ∧ ((swStep initSW (SWEvent.stableKey "")).results = []
      ∧ (swStep initSW (SWEvent.stableKey "")).issuedQueries = initSW.issuedQueries
      ∧ (swStep initSW (SWEvent.stableKey "")).loading = initSW.loading
      ∧ (initSW.loading = false →
          swStatus (swStep initSW (SWEvent.stableKey "")) = RequestStatus.Idle)) :=
  ⟨rfl, swEmptyKey_clears initSW⟩

/-- C5 counterexample.  A transport error for the current request of
`SearchWithDebounce` is not converted into an error field with
`status = Error`: the catch block only logs, so after `"ab"` issues request 0
and it rejects, the state merely stops loading and reports `Idle` — the
component has no error cell at all. -/
theorem swError_swallowed_counterexample :
    (swRun [SWEvent.stableKey "ab"]).issuedQueries = ["ab"]
    ∧ swStatus (swRun [SWEvent.stableKey "ab",
        SWEvent.respError 0 "Network Error"]) = RequestStatus.Idle
    ∧ swStatus (swRun [SWEvent.stableKey "ab",
        SWEvent.respError 0 "Network Error"]) ≠ RequestStatus.Error := by
  refine ⟨?_, ?_, ?_⟩ <;> decide

/-- C5 (amended): transport errors are always caught at the coordinator
boundary — the step functions are total, so no error reaches the consumer's
render path.  In `DynamicFetch` an error response is converted into
`error = some msg` with `status = Error`; in `SearchWithDebounce` the catch
block only logs: an error response leaves `results` unchanged and no
reachable or unreachable state of that component ever reports `Error`. -/
theorem transportError_handling :
    (∀ (s : DynamicFetchState) (t : Nat) (m : String),
        (dfStep s (DFEvent.failure t m)).error = some m
        ∧ dfStatus (dfStep s (DFEvent.failure t m)) = RequestStatus.Error)
    ∧ (∀ (s : SearchState) (t : Nat) (m : String),
        (swStep s (SWEvent.respError t m)).results = s.results)
    ∧ (∀ s : SearchState,
        swStatus s = RequestStatus.Idle ∨ swStatus s = RequestStatus.Loading
          ∨ swStatus s = RequestStatus.Success) := by
  refine ⟨fun s t m => ⟨rfl, rfl⟩, fun s t m => rfl, fun s => ?_⟩
  unfold swStatus
  by_cases hl : s.loading
  · simp [hl]
  · by_cases hr : s.results.isEmpty <;> simp [hl, hr]

/-- C10 (confirmed): the results a response applies to the state are exactly
the returned users whose name or email contains the query of that request as
a case-insensitive substring. -/
theorem searchResults_exact (s : SearchState) (i : Nat)
    (users : List UserRec) (u : UserRec) :
    u ∈ (swStep s (SWEvent.response i users)).results
      ↔ u ∈ users ∧ SpecCaseInsensitiveMatch (s.issuedQueries.getD i "") u := by
  show u ∈ filterUsers (s.issuedQueries.getD i "") users ↔ _
  rw [filterUsers, List.mem_filter]
  constructor
  · rintro ⟨hu, hm⟩
    refine ⟨hu, ?_⟩
    rcases Bool.or_eq_true _ _ |>.mp hm with hn | he
    · exact Or.inl ((listIncludes_iff _ _).mp hn)
    · exact Or.inr ((listIncludes_iff _ _).mp he)
  · rintro ⟨hu, hm⟩
    refine ⟨hu, ?_⟩
    rcases hm with hn | he
    · exact Bool.or_eq_true _ _ |>.mpr (Or.inl ((listIncludes_iff _ _).mpr hn))
    · exact Bool.or_eq_true _ _ |>.mpr (Or.inr ((listIncludes_iff _ _).mpr he))

/-- State of the debounce effect of `DebounceSearchExample.jsx`: the raw
`searchTerm`, the `debouncedTerm` (the spec's `stableValue`), and the pending
`setTimeout` handle — deadline together with the value its callback will
write (the callback closes over `searchTerm` at scheduling time). -/
structure DebounceState : Type where
  searchTerm : String
  debouncedTerm : String
  pendingTimer : Option (Nat × String)
deriving DecidableEq

/-- Initial debounce state on mount: both terms `useState("")`, no timer. -/
def initDeb : DebounceState := ⟨"", "", none⟩

/-- Process a time-ordered list of keystrokes `(time, value)` through the
debounce effect (`DebounceSearchExample.jsx` lines 21–35), returning the
final state and the list of timer firings `(fireTime, value)`.  For each
keystroke: if the pending timer's deadline has already passed, it fired
first (`setDebouncedTerm`); then the effect cleanup cancels any pending
timer (`clearTimeout`) and the effect schedules a new one for
`time + delay` capturing the new value. -/
def debounceProc (delay : Nat) :
    DebounceState → List (Nat × String) → DebounceState × List (Nat × String)
  | st, [] => (st, [])
  | st, (t, v) :: ks =>
      match st.pendingTimer with
      | some (d, w) =>
          if d < t then
            let r := debounceProc delay ⟨v, w, some (t + delay, v)⟩ ks
            (r.1, (d, w) :: r.2)
          else
            debounceProc delay ⟨v, st.debouncedTerm, some (t + delay, v)⟩ ks
      | none =>
          debounceProc delay ⟨v, st.debouncedTerm, some (t + delay, v)⟩ ks

/-- Let the input quiesce: the pending timer, if any, eventually fires. -/
def debounceFlush (st : DebounceState) : DebounceState × List (Nat × String) :=
  match st.pendingTimer with
  | some (d, w) => (⟨st.searchTerm, w, none⟩, [(d, w)])
  | none => (st, [])

/-- Full debounce run: process the keystrokes, then quiesce. -/
def debounceRun (delay : Nat) (ks : List (Nat × String)) :
    DebounceState × List (Nat × String) :=
  (debounceFlush (debounceProc delay initDeb ks).1 |>.1,
   (debounceProc delay initDeb ks).2
     ++ (debounceFlush (debounceProc delay initDeb ks).1).2)

/-- A keystroke sequence is rapid after time `tp`: each keystroke comes
strictly after the previous one and strictly less than `delay` later. -/
def rapidB (delay : Nat) : Nat → List (Nat × String) → Bool
  | _, [] => true
  | tp, (t, _) :: ks =>
      decide (tp < t) && decide (t < tp + delay) && rapidB delay t ks

theorem debounceProc_rapid (delay : Nat) (ks : List (Nat × String))
    (tp : Nat) (w y : String) (h : rapidB delay tp ks = true) :
    debounceProc delay ⟨w, y, some (tp + delay, w)⟩ ks
      = (⟨(ks.getLastD (tp, w)).2, y,
          some ((ks.getLastD (tp, w)).1 + delay, (ks.getLastD (tp, w)).2)⟩,
         []) := by
  induction ks generalizing tp w with
  | nil => rfl
  | cons k ks ih =>
      obtain ⟨t, v⟩ := k
      simp only [rapidB, Bool.and_eq_true, decide_eq_true_eq] at h
      obtain ⟨⟨h1, h2⟩, h3⟩ := h
      have hred : debounceProc delay ⟨w, y, some (tp + delay, w)⟩ ((t, v) :: ks)
          = if tp + delay < t then
              ((debounceProc delay ⟨v, w, some (t + delay, v)⟩ ks).1,
               (tp + delay, w)
                 :: (debounceProc delay ⟨v, w, some (t + delay, v)⟩ ks).2)
            else
              debounceProc delay ⟨v, y, some (t + delay, v)⟩ ks := rfl
      rw [hred, if_neg (by omega), ih t v h3, List.getLastD_cons]

/-- C2 (confirmed): for a keystroke sequence whose consecutive gaps are all
strictly less than `delay`, the debounced term never updates while the
keystrokes keep arriving (no timer fires during processing), and once input
quiesces it updates exactly once — to the value of the last keystroke, at
`delay` after the last keystroke's time. -/
theorem debounce_quiescence (delay t0 : Nat) (v0 : String)
    (rest : List (Nat × String)) (h : rapidB delay t0 rest = true) :
    (debounceProc delay initDeb ((t0, v0) :: rest)).2 = []
    ∧ (debounceRun delay ((t0, v0) :: rest)).2
        = [((rest.getLastD (t0, v0)).1 + delay, (rest.getLastD (t0, v0)).2)]
    ∧ (debounceRun delay ((t0, v0) :: rest)).1.debouncedTerm
        = (rest.getLastD (t0, v0)).2 := by
  have hstep : debounceProc delay initDeb ((t0, v0) :: rest)
      = debounceProc delay ⟨v0, "", some (t0 + delay, v0)⟩ rest := rfl
  have hmain := debounceProc_rapid delay rest t0 v0 "" h
  refine ⟨?_, ?_, ?_⟩ <;>
    simp [debounceRun, hstep, hmain, debounceFlush]

/-- Witness for C2: the spec §8 scenario — `"r"`, `"re"`, `"rea"`, `"react"`
typed 100 ms apart with `delay = 500` yields exactly one update, to
`"react"`, at time 800. -/
theorem debounce_quiescence_witness :
    rapidB 500 0 [(100, "re"), (200, "rea"), (300, "react")] = true
    ∧ ((debounceProc 500 initDeb
          [(0, "r"), (100, "re"), (200, "rea"), (300, "react")]).2 = []
      ∧ (debounceRun 500
          [(0, "r"), (100, "re"), (200, "rea"), (300, "react")]).2
          = [(800, "react")]
      ∧ (debounceRun 500
          [(0, "r"), (100, "re"), (200, "rea"), (300, "react")]).1.debouncedTerm
          = "react") :=
  ⟨by decide,
   debounce_quiescence 500 0 "r" [(100, "re"), (200, "rea"), (300, "react")]
     (by decide)⟩

/-- The effect cleanup on unmount (`DebounceSearchExample.jsx` lines 31–34):
`clearTimeout` cancels the pending timer. -/
def debounceUnmount (st : DebounceState) : DebounceState :=
  ⟨st.searchTerm, st.debouncedTerm, none⟩

/-- Advance time to `now`: a pending timer whose deadline has been reached
fires and writes its captured value to the debounced term. -/
def fireDue (st : DebounceState) (now : Nat) : DebounceState × List (Nat × String) :=
  match st.pendingTimer with
  | some (d, w) =>
      if d ≤ now then (⟨st.searchTerm, w, none⟩, [(d, w)]) else (st, [])
  | none => (st, [])

/-- C7 (confirmed): after the consumer is disposed, the cancelled debounce
callback never fires — at every later time, no firing occurs and the
debounced term (the spec's `stableValue`) is exactly what it was at
disposal. -/
theorem debounce_no_fire_after_unmount (delay : Nat)
    (ks : List (Nat × String)) (now : Nat) :
    fireDue (debounceUnmount (debounceProc delay initDeb ks).1) now
      = (debounceUnmount (debounceProc delay initDeb ks).1, [])
    ∧ (debounceUnmount (debounceProc delay initDeb ks).1).debouncedTerm
      = (debounceProc delay initDeb ks).1.debouncedTerm :=
  ⟨rfl, rfl⟩

/-- Pager events of the gallery (`App.jsx` lines 74–100). -/
inductive GalleryEvent : Type where
  | next : GalleryEvent
  | previous : GalleryEvent
deriving DecidableEq

/-- One pager step: Next runs `setIndex(index + 1)`; Previous runs
`setIndex(index - 1)` only when `index > 1` (guarded both by the click
handler and by disabling the button on page 1). -/
def galleryStep (index : Nat) : GalleryEvent → Nat
  | GalleryEvent.next => index + 1
  | GalleryEvent.previous => if 1 < index then index - 1 else index

/-- Run the pager from its initial page `useState(1)`. -/
def galleryRun (es : List GalleryEvent) : Nat :=
  es.foldl galleryStep 1

/-- The request URL `getData` issues at a given page index
(`App.jsx` line 22). -/
def galleryRequestUrl (index : Nat) : String :=
  "https://picsum.photos/v2/list?page=" ++ toString index ++ "&limit=20"

theorem galleryFoldl_ge_one (es : List GalleryEvent) (n : Nat) (h : 1 ≤ n) :
    1 ≤ es.foldl galleryStep n := by
  induction es generalizing n with
  | nil => exact h
  | cons e es ih =>
      cases e with
      | next =>
          exact ih (n + 1) (by omega)
      | previous =>
          refine ih _ ?_
          simp only [galleryStep]
          split <;> omega

/-- C9 (confirmed): the gallery page index starts at 1 and stays at least 1
in every reachable state; Next increments it, Previous decrements it only
when it is strictly greater than 1; since every issued request's URL is
built from the current index, every request carries a page number at
least 1. -/
theorem gallery_page_ge_one :
    galleryRun [] = 1
    ∧ (∀ es, galleryRun (es ++ [GalleryEvent.next]) = galleryRun es + 1)
    ∧ (∀ es, galleryRun (es ++ [GalleryEvent.previous])
        = if 1 < galleryRun es then galleryRun es - 1 else galleryRun es)
    ∧ (∀ es, 1 ≤ galleryRun es)
    ∧ (∀ es, galleryRequestUrl (galleryRun es)
        = "https://picsum.photos/v2/list?page="
            ++ toString (galleryRun es) ++ "&limit=20") := by
  refine ⟨rfl, fun es => ?_, fun es => ?_, fun es => ?_, fun es => rfl⟩
  · simp [galleryRun, List.foldl_append, galleryStep]
  · simp [galleryRun, List.foldl_append, galleryStep]
  · exact galleryFoldl_ge_one es 1 (by omega)
